import Mathlib

/-!
Verification development for the CliMT component coupling engine
(`lib/climt/component.py`): a shallow embedding of the `Component` class —
recompute gating, kernel-input assembly per stepping scheme, increment
extraction and accumulation, the step loop, calendar advancement and the
field-indexed accessor — together with theorems about the embedded code.

Numeric scalars and array elements are modelled as rationals (exact
arithmetic standing in for Python floats); Python dictionaries are modelled
as association lists with replace-on-insert semantics; Python exceptions
(`KeyError` from `Output.pop`, `IndexError` from the accessors, `ValueError`
from `reshape`) are modelled with `Except`/`Option`.

Parts of the repository that `component.py` imports but that live outside
the embedded sources (`state.py`, `parameters.py`, `utils.py`) are modelled
from the specification and are marked as such in their doc comments.
-/

/-- A numeric array: an explicit shape together with row-major flat data,
mirroring a numpy array's `shape` and flattened contents. -/
structure Arr where
  shape : List Nat
  data : List ℚ
deriving DecidableEq, Repr

/-- A value stored in one of the string-keyed maps (Parameters, Grid,
State): either a numeric array (scalars are rank-0 arrays) or a string,
matching the `type(obj[key]) is type('string')` test in
`Component.__getitem__`. -/
inductive Value where
  | num (a : Arr)
  | str (s : String)
deriving DecidableEq, Repr

/-- A rank-0 (scalar) numeric value. -/
def scalar (q : ℚ) : Value := .num ⟨[], [q]⟩

/-- Reads a scalar back out of a `Value` (the inverse of `scalar` on
rank-0 arrays); non-numeric or empty values give a junk default, which no
verified claim exercises. -/
def Value.toRat : Value → ℚ
  | .num a => a.data.headD 0
  | .str _ => 0

/-- Elementwise addition, mirroring numpy `+=` on arrays of equal shape
(the only way the source adds field values). -/
def valAdd : Value → Value → Value
  | .num a, .num b => .num ⟨a.shape, List.zipWith (· + ·) a.data b.data⟩
  | v, _ => v

/-- A Python dictionary from field names to values, modelled as an
association list whose insert replaces any existing binding. -/
abbrev FieldMap := List (String × Value)

/-- Dictionary lookup (`d[k]` / `d.get(k)`). -/
def dlookup (m : FieldMap) (k : String) : Option Value :=
  match m with
  | [] => none
  | (k', v) :: rest => if k' = k then some v else dlookup rest k

/-- Dictionary membership (`k in d`). -/
def dmem (m : FieldMap) (k : String) : Bool := (dlookup m k).isSome

/-- Removes every binding of `k` (`del d[k]` / `d.pop(k)`'s removal; keys
are unique in a Python dict, so removing all matches is the same). -/
def dremove (m : FieldMap) (k : String) : FieldMap :=
  match m with
  | [] => []
  | p :: rest => if p.1 = k then dremove rest k else p :: dremove rest k

/-- Dictionary write (`d[k] = v`): replaces any existing binding of `k`. -/
def dinsert (m : FieldMap) (k : String) (v : Value) : FieldMap :=
  dremove m k ++ [(k, v)]

/-- Python `d.pop(k)`: the removed value and the remaining dictionary, or
`none` when the key is absent (a `KeyError` in the source). -/
def dpop (m : FieldMap) (k : String) : Option (Value × FieldMap) :=
  match dlookup m k with
  | none => none
  | some v => some (v, dremove m k)

/-- Python `d.update(ext)`: fold `ext`'s bindings into `m`, later bindings
winning. -/
def dupdate (m ext : FieldMap) : FieldMap :=
  ext.foldl (fun acc p => dinsert acc p.1 p.2) m

/-- The key list of a dictionary (`d.keys()`). -/
def dkeys (m : FieldMap) : List String := m.map Prod.fst

theorem dlookup_dremove_self (m : FieldMap) (k : String) :
    dlookup (dremove m k) k = none := by
  induction m with
  | nil => rfl
  | cons p rest ih =>
    by_cases h : p.1 = k <;> simp [dremove, dlookup, h, ih]

theorem dlookup_dremove_ne (m : FieldMap) (k k' : String) (h : k' ≠ k) :
    dlookup (dremove m k) k' = dlookup m k' := by
  induction m with
  | nil => rfl
  | cons p rest ih =>
    show dlookup (if p.1 = k then dremove rest k else p :: dremove rest k) k'
        = dlookup (p :: rest) k'
    by_cases h1 : p.1 = k
    · have h2 : p.1 ≠ k' := fun he => h (he.symm.trans h1)
      rw [if_pos h1, ih]
      show dlookup rest k' = if p.1 = k' then some p.2 else dlookup rest k'
      rw [if_neg h2]
    · rw [if_neg h1]
      show (if p.1 = k' then some p.2 else dlookup (dremove rest k) k')
          = if p.1 = k' then some p.2 else dlookup rest k'
      rw [ih]

theorem dlookup_dinsert_self (m : FieldMap) (k : String) (v : Value) :
    dlookup (dinsert m k v) k = some v := by
  unfold dinsert
  induction m with
  | nil => simp [dlookup]
  | cons p rest ih =>
    by_cases h : p.1 = k <;> simp [dremove, dlookup, h, ih]

theorem dlookup_dinsert_ne (m : FieldMap) (k : String) (v : Value)
    (k' : String) (h : k' ≠ k) :
    dlookup (dinsert m k v) k' = dlookup m k' := by
  unfold dinsert
  induction m with
  | nil =>
    show (if k = k' then some v else dlookup [] k') = dlookup [] k'
    rw [if_neg (fun he => h he.symm)]
  | cons p rest ih =>
    show dlookup ((if p.1 = k then dremove rest k else p :: dremove rest k) ++ [(k, v)]) k'
        = dlookup (p :: rest) k'
    by_cases h1 : p.1 = k
    · have h2 : p.1 ≠ k' := fun he => h (he.symm.trans h1)
      rw [if_pos h1, ih]
      show dlookup rest k' = if p.1 = k' then some p.2 else dlookup rest k'
      rw [if_neg h2]
    · rw [if_neg h1]
      show (if p.1 = k' then some p.2 else dlookup (dremove rest k ++ [(k, v)]) k')
          = if p.1 = k' then some p.2 else dlookup rest k'
      rw [ih]

theorem dlookup_dinsert (m : FieldMap) (k : String) (v : Value) (k' : String) :
    dlookup (dinsert m k v) k' = if k' = k then some v else dlookup m k' := by
  by_cases h : k' = k
  · rw [h, dlookup_dinsert_self]; simp
  · rw [dlookup_dinsert_ne m k v k' h]; simp [h]

theorem dmem_iff_lookup (m : FieldMap) (k : String) :
    dmem m k = true ↔ ∃ v, dlookup m k = some v := by
  unfold dmem
  cases dlookup m k <;> simp

theorem dmem_false_iff_lookup (m : FieldMap) (k : String) :
    dmem m k = false ↔ dlookup m k = none := by
  unfold dmem
  cases dlookup m k <;> simp

theorem dmem_iff_keys (m : FieldMap) (k : String) :
    dmem m k = true ↔ k ∈ dkeys m := by
  induction m with
  | nil => simp [dmem, dlookup, dkeys]
  | cons p rest ih =>
    have hk : dkeys (p :: rest) = p.1 :: dkeys rest := rfl
    rw [hk]
    by_cases h : p.1 = k
    · simp [dmem, dlookup, h]
    · constructor
      · intro hm
        have : dmem rest k = true := by simpa [dmem, dlookup, h] using hm
        exact List.mem_cons_of_mem _ (ih.mp this)
      · intro hm
        rcases List.mem_cons.mp hm with hm | hm
        · exact absurd hm.symm h
        · simpa [dmem, dlookup, h] using ih.mpr hm

theorem dlookup_dupdate_not_mem (m ext : FieldMap) (k : String)
    (h : dmem ext k = false) :
    dlookup (dupdate m ext) k = dlookup m k := by
  induction ext generalizing m with
  | nil => rfl
  | cons p rest ih =>
    have h1 : p.1 ≠ k := by
      intro he
      simp [dmem, dlookup, he] at h
    have h2 : dmem rest k = false := by
      simpa [dmem, dlookup, h1] using h
    show dlookup (dupdate (dinsert m p.1 p.2) rest) k = dlookup m k
    rw [ih _ h2, dlookup_dinsert_ne _ _ _ _ (fun he => h1 he.symm)]

theorem dlookup_dupdate_mem (m ext : FieldMap) (k : String) (v : Value)
    (hnd : (dkeys ext).Nodup) (h : dlookup ext k = some v) :
    dlookup (dupdate m ext) k = some v := by
  induction ext generalizing m with
  | nil => simp [dlookup] at h
  | cons p rest ih =>
    have hk : dkeys (p :: rest) = p.1 :: dkeys rest := rfl
    rw [hk, List.nodup_cons] at hnd
    by_cases h1 : p.1 = k
    · have hv : v = p.2 := by
        rw [dlookup, if_pos h1] at h
        exact (Option.some.inj h).symm
      have hnm : dmem rest k = false := by
        cases hm : dmem rest k
        · rfl
        · exact absurd (h1 ▸ (dmem_iff_keys rest k).mp hm) hnd.1
      show dlookup (dupdate (dinsert m p.1 p.2) rest) k = some v
      rw [dlookup_dupdate_not_mem _ _ _ hnm, h1, dlookup_dinsert_self, hv]
    · have h2 : dlookup rest k = some v := by
        rw [dlookup, if_neg h1] at h
        exact h
      exact ih _ hnd.2 h2

/-- Python `int()` applied to an exact rational: truncation toward zero,
the conversion the source applies in its boundary-crossing tests
(`int(time/freq)`). -/
def pyInt (q : ℚ) : ℤ := if q < 0 then -⌊-q⌋ else ⌊q⌋

/-- Static configuration of a `Component`, fixed at construction: the
declared field classification and kernel interface of `component.py`,
plus, modelled from the spec, the `KnownFields` dimension tags and the
grid axis lengths (`state.py` / `_grid` are external collaborators): each
known State field is tagged `"2D"` or `"3D"` and the 3D shape is
`(nlev, nlat, nlon)`. `driver` is the opaque compute kernel: an ordered
list of input values to an ordered list of output values (a kernel with a
single declared output returns a one-element list, standing for the
unwrapped single return value in the source). -/
structure CompConfig where
  Prognostic : List String
  Fixed : List String
  SteppingScheme : String
  ToExtension : List String
  FromExtension : List String
  driver : List Value → List Value
  update_frequency : ℚ
  OutputFreq : ℚ
  nlev : Nat
  nlat : Nat
  nlon : Nat
  knownDim : String → String

/-- Mutable state owned by one `Component`: the Parameter store, the Grid
values, the two State time levels `Now`/`Old` with elapsed simulated time,
the increment map `Inc`, and a count of output records written (standing
for the I/O collaborator's side effect, so that "writes no output" is
expressible). -/
structure CompState where
  params : FieldMap
  gridv : FieldMap
  stateNow : FieldMap
  stateOld : FieldMap
  elapsedTime : ℚ
  Inc : FieldMap
  outputCount : Nat
deriving DecidableEq, Repr

/-- Modelled from the spec: `utils.squeeze` (utils.py is not among the
embedded sources). Get "squeezing degenerate array dimensions for
non-string values": axes of length 1 are dropped, the data untouched. -/
def squeezeVal : Value → Value
  | .num a => .num ⟨a.shape.filter (fun n => n != 1), a.data⟩
  | .str s => .str s

/-- `Component.__getitem__`: look the key up in Parameters, then Grid,
then State (in that priority order); strings are returned as stored,
anything else squeezed; `none` stands for the `IndexError` raised when the
key is found nowhere. -/
def getitem (s : CompState) (k : String) : Option Value :=
  match dlookup s.params k with
  | some v => some (squeezeVal v)
  | none =>
    match dlookup s.gridv k with
    | some v => some (squeezeVal v)
    | none =>
      match dlookup s.stateNow k with
      | some v => some (squeezeVal v)
      | none => none

/-- The scalar the source reads through `self[key]`; the default for an
absent key (which raises in the source) is junk that no verified claim
exercises. -/
def getitemRat (s : CompState) (k : String) : ℚ :=
  ((getitem s k).getD (scalar 0)).toRat

/-- Product of a shape's extents (the element count numpy `reshape`
requires). -/
def listProd (l : List Nat) : Nat := l.foldl (· * ·) 1

/-- numpy `reshape(value, sh)`: succeeds exactly when the element count
matches, keeping the flat data; `none` stands for the `ValueError`. -/
def reshapeVal : Value → List Nat → Option Value
  | .num a, sh => if a.data.length = listProd sh then some (.num ⟨sh, a.data⟩) else none
  | .str _, _ => none

/-- `Component.__setitem__`: route to Parameters or Grid if the key is
present there; otherwise, if the key is a known State field, reshape the
assigned value to its declared 2D shape `(nlat, nlon)` or 3D shape
`(nlev, nlat, nlon)` before storing; `none` stands for the `IndexError`
(or the reshape `ValueError`). -/
def setitem (cfg : CompConfig) (s : CompState) (k : String) (v : Value) :
    Option CompState :=
  if dmem s.params k then some { s with params := dinsert s.params k v }
  else if dmem s.gridv k then some { s with gridv := dinsert s.gridv k v }
  else if dmem s.stateNow k && (cfg.knownDim k == "2D") then
    match reshapeVal v [cfg.nlat, cfg.nlon] with
    | some v' => some { s with stateNow := dinsert s.stateNow k v' }
    | none => none
  else if dmem s.stateNow k && (cfg.knownDim k == "3D") then
    match reshapeVal v [cfg.nlev, cfg.nlat, cfg.nlon] with
    | some v' => some { s with stateNow := dinsert s.stateNow k v' }
    | none => none
  else none

/-- `self[k] = v` as used inside `Component.step` for the calendar: the
source would raise if `calday` were nowhere; theorems about the calendar
hypothesize its presence, so the fallback is never exercised there. -/
def setitemForce (cfg : CompConfig) (s : CompState) (k : String) (v : Value) :
    CompState :=
  (setitem cfg s k v).getD s

/-- The recompute gate of `Component.compute`: the kernel runs iff the
caller forces it or `int(time/freq) != int((time - self['dt'])/freq)`. -/
def invoked (cfg : CompConfig) (forced : Bool) (s : CompState) : Bool :=
  forced || (if pyInt (s.elapsedTime / cfg.update_frequency)
      = pyInt ((s.elapsedTime - getitemRat s "dt") / cfg.update_frequency)
    then false else true)

/-- Input assembly of `Component.compute`: union of `State.Now`, Grid and
Parameter values, plus `UpdateFreq`; for `implicit` stepping the previous
time level overwrites, for `semi-implicit` each Prognostic field's old
value is appended under the key `<name>old` (an absent old value, which
would raise in the source, yields a junk default no claim exercises). -/
def buildInput (cfg : CompConfig) (s : CompState) : FieldMap :=
  let i1 := dupdate (dupdate (dupdate [] s.stateNow) s.gridv) s.params
  let i2 := dinsert i1 "UpdateFreq" (scalar cfg.update_frequency)
  let i3 := if cfg.SteppingScheme = "implicit" then dupdate i2 s.stateOld else i2
  if cfg.SteppingScheme = "semi-implicit" then
    cfg.Prognostic.foldl
      (fun m k => dinsert m (k ++ "old") ((dlookup s.stateOld k).getD (scalar 0))) i3
  else i3

/-- Kernel invocation of `Component.compute`: the arguments are the input
values in `ToExtension` order, and the output dictionary pairs
`FromExtension` names with the returned values positionally. -/
def buildOutput (cfg : CompConfig) (s : CompState) : FieldMap :=
  let args := cfg.ToExtension.map (fun k => (dlookup (buildInput cfg s) k).getD (scalar 0))
  List.zip cfg.FromExtension (cfg.driver args)

/-- Result of the increment-extraction loop of `Component.compute`:
either the updated `Inc` with the reduced output, or — when some
Prognostic field `k` has no `<k>inc` output (a `KeyError` in the source) —
the partially overwritten `Inc` and the output as they stood at the raise. -/
inductive ExtractResult where
  | ok (inc out : FieldMap)
  | missing (inc out : FieldMap)

/-- The increment-extraction loop: `self.Inc[key] = Output.pop(key+'inc')`
for each declared Prognostic key in order, stopping at the first missing
increment. -/
def extractIncs : List String → FieldMap → FieldMap → ExtractResult
  | [], inc, out => .ok inc out
  | k :: rest, inc, out =>
    match dpop out (k ++ "inc") with
    | none => .missing inc out
    | some (v, out') => extractIncs rest (dinsert inc k v) out'

/-- Sequential removal (`for key in keys: m.pop(key)` guarded by
membership, so absent keys are skipped silently as in the source). -/
def removeAll (keys : List String) (m : FieldMap) : FieldMap :=
  keys.foldl (fun acc k => dremove acc k) m

/-- Modelled from the spec: `State.update` (state.py is not among the
embedded sources) merges the remaining kernel outputs — the diagnostics —
into `State.Now`, replacing prior values. -/
def stateUpdate (now out : FieldMap) : FieldMap := dupdate now out

/-- `Component.compute`: gate, input assembly, kernel call, increment
extraction (raising on a missing increment with `Inc` partially
overwritten), Fixed-field removal from both `Inc` and the output, and the
diagnostics merge into `State.Now`. The boolean records whether the kernel
was invoked; `Except.error` carries the component state at the raise.
The source's convenience attribute mirror (`exec('self.'+key+'=...')`) has
no counterpart in the state and is not modelled. -/
def compute (cfg : CompConfig) (forced : Bool) (s : CompState) :
    Bool × Except CompState CompState :=
  if invoked cfg forced s = false then (false, .ok s)
  else
    let output := buildOutput cfg s
    match extractIncs cfg.Prognostic s.Inc output with
    | .missing inc _ => (true, .error { s with Inc := inc })
    | .ok inc out =>
      let inc2 := removeAll cfg.Fixed inc
      let out2 := removeAll cfg.Fixed out
      (true, .ok { s with Inc := inc2, stateNow := stateUpdate s.stateNow out2 })

/-- Modelled from the spec: `State.advance` (state.py is not among the
embedded sources). Per its contract: for every Prognostic, non-Fixed
field, `Now` becomes the next `Old` and the field is updated from the
accumulated `Inc` (forward Euler here, the spec's example rule);
`ElapsedTime` increases by `dt`. `Inc` is consumed by reading, not
mutated: per the spec, when recomputation is gated off the previous
step's increments remain in effect. -/
def advance (cfg : CompConfig) (s : CompState) : CompState :=
  let upd := cfg.Prognostic.foldl
    (fun (acc : FieldMap × FieldMap) k =>
      if k ∈ cfg.Fixed then acc
      else
        let nowv := (dlookup s.stateNow k).getD (scalar 0)
        let incv := (dlookup s.Inc k).getD (scalar 0)
        (dinsert acc.1 k nowv, dinsert acc.2 k (valAdd nowv incv)))
    (s.stateOld, s.stateNow)
  { s with stateOld := upd.1, stateNow := upd.2,
           elapsedTime := s.elapsedTime + getitemRat s "dt" }

/-- The external-increment merge of `Component.step`: each field of the
`ExternalInc` argument is added to the component's own `Inc` when already
present, and inserted otherwise. -/
def mergeInc (inc ext : FieldMap) : FieldMap :=
  ext.foldl
    (fun m p =>
      match dlookup m p.1 with
      | some v => dinsert m p.1 (valAdd v p.2)
      | none => dinsert m p.1 p.2) inc

/-- The calendar advancement of `Component.step`:
`self['calday'] += self['dt']/self['lod']`, then subtract
`self['daysperyear']` once if the result exceeds it. -/
def calUpdate (cfg : CompConfig) (s : CompState) : CompState :=
  let s1 := setitemForce cfg s "calday"
    (scalar (getitemRat s "calday" + getitemRat s "dt" / getitemRat s "lod"))
  if getitemRat s1 "daysperyear" < getitemRat s1 "calday" then
    setitemForce cfg s1 "calday"
      (scalar (getitemRat s1 "calday" - getitemRat s1 "daysperyear"))
  else s1

/-- The output-write trigger of `Component.step`: the same
boundary-crossing test as the recompute gate, against the I/O output
frequency, with `dt` read directly from the parameter store. -/
def outputTrigger (cfg : CompConfig) (s : CompState) : Bool :=
  if pyInt (s.elapsedTime / cfg.OutputFreq)
      = pyInt ((s.elapsedTime - ((dlookup s.params "dt").getD (scalar 0)).toRat)
          / cfg.OutputFreq)
  then false else true

/-- One iteration of the loop in `Component.step`: merge the external
increments, advance the state, gated recompute, calendar update, and the
output-write trigger (the monitor refresh has no effect on the modelled
state and is not represented). An exception from `compute` propagates
with that iteration's remaining effects unapplied. -/
def stepIter (cfg : CompConfig) (ext : FieldMap) (s : CompState) :
    Except CompState CompState :=
  let s1 := { s with Inc := mergeInc s.Inc ext }
  let s2 := advance cfg s1
  match compute cfg false s2 with
  | (_, .error e) => .error e
  | (_, .ok s3) =>
    let s4 := calUpdate cfg s3
    let s5 := if outputTrigger cfg s4 then { s4 with outputCount := s4.outputCount + 1 }
              else s4
    .ok s5

/-- The `RunLength` argument of `Component.step`: a Python `int` is a
step count, a Python `float` a run duration in seconds. -/
inductive RunLength where
  | int (n : ℤ)
  | real (q : ℚ)

/-- `NSteps` as computed by `Component.step` (`int(RunLength/self['dt'])`
in the duration case). -/
def nsteps (dt : ℚ) : RunLength → ℤ
  | .int n => n
  | .real q => pyInt (q / dt)

/-- The `for i in range(NSteps)` loop of `Component.step`. -/
def stepLoop (cfg : CompConfig) (ext : FieldMap) :
    Nat → CompState → Except CompState CompState
  | 0, s => .ok s
  | n + 1, s =>
    match stepIter cfg ext s with
    | .error e => .error e
    | .ok s' => stepLoop cfg ext n s'

/-- `Component.step(RunLength, Inc)` (a negative `NSteps` gives an empty
`range`, hence `Int.toNat`). -/
def step (cfg : CompConfig) (rl : RunLength) (ext : FieldMap) (s : CompState) :
    Except CompState CompState :=
  stepLoop cfg ext (nsteps (getitemRat s "dt") rl).toNat s

/-- Generic n-fold iteration of a fallible state transformer, used to
state how many iterations `step` performs. -/
def iterExcept (f : CompState → Except CompState CompState) :
    Nat → CompState → Except CompState CompState
  | 0, s => .ok s
  | n + 1, s =>
    match f s with
    | .error e => .error e
    | .ok s' => iterExcept f n s'

/-- The increment-relevant part of `Component.__init__`: `self.Inc = {}`
followed by `self.compute(ForcedCompute=True)` to seed initial
diagnostics and increments. -/
def constructCompute (cfg : CompConfig) (s : CompState) :
    Bool × Except CompState CompState :=
  compute cfg true { s with Inc := [] }

/-- The spec's `Inc` key invariant: every key of the increment map is a
declared Prognostic field that is not Fixed. -/
def IncInv (cfg : CompConfig) (s : CompState) : Prop :=
  ∀ k, dmem s.Inc k = true → k ∈ cfg.Prognostic ∧ k ∉ cfg.Fixed

theorem toRat_squeezeVal (v : Value) : (squeezeVal v).toRat = v.toRat := by
  cases v <;> rfl

theorem compute_not_invoked (cfg : CompConfig) (forced : Bool) (s : CompState)
    (h : invoked cfg forced s = false) :
    compute cfg forced s = (false, Except.ok s) := by
  unfold compute
  rw [if_pos h]

theorem compute_fst (cfg : CompConfig) (forced : Bool) (s : CompState) :
    (compute cfg forced s).1 = invoked cfg forced s := by
  cases h : invoked cfg forced s
  · rw [compute_not_invoked _ _ _ h]
  · unfold compute
    rw [if_neg (by simp [h])]
    dsimp only
    cases hE : extractIncs cfg.Prognostic s.Inc (buildOutput cfg s) <;> rfl

theorem invoked_false_gate (cfg : CompConfig) (s : CompState) :
    invoked cfg false s = true ↔
      pyInt (s.elapsedTime / cfg.update_frequency)
        ≠ pyInt ((s.elapsedTime - getitemRat s "dt") / cfg.update_frequency) := by
  unfold invoked
  by_cases h : pyInt (s.elapsedTime / cfg.update_frequency)
      = pyInt ((s.elapsedTime - getitemRat s "dt") / cfg.update_frequency)
  · simp [h]
  · simp [h]

theorem invoked_forced (cfg : CompConfig) (s : CompState) :
    invoked cfg true s = true := by
  unfold invoked
  rfl

/-- Concrete component for the gate counterexample: update frequency 100,
`dt` 30, elapsed time 0 (a freshly initialized state, as a non-forced
`compute` reaches through `Component.__call__`). -/
def c1cfg : CompConfig := {
  Prognostic := [], Fixed := [], SteppingScheme := "explicit",
  ToExtension := [], FromExtension := [], driver := (fun _ => []),
  update_frequency := 100, OutputFreq := 86400,
  nlev := 1, nlat := 1, nlon := 1, knownDim := (fun _ => "") }

def c1s : CompState := {
  params := [("dt", scalar 30)], gridv := [], stateNow := [], stateOld := [],
  elapsedTime := 0, Inc := [], outputCount := 0 }

/-- C1, counterexample: at update frequency `f = 100`, `dt = 30`, elapsed
time `t = 0`, the mathematical-floor boundary test of the claim says the
kernel must be invoked (`⌊0/100⌋ = 0 ≠ -1 = ⌊-30/100⌋`), but the code's
`int()`-based gate truncates toward zero, compares `0 = 0`, and returns
without invoking the kernel, leaving the state unchanged. -/
theorem C1_floor_gate_counterexample :
    invoked c1cfg false c1s = false
    ∧ compute c1cfg false c1s = (false, Except.ok c1s)
    ∧ ⌊c1s.elapsedTime / c1cfg.update_frequency⌋
        ≠ ⌊(c1s.elapsedTime - getitemRat c1s "dt") / c1cfg.update_frequency⌋ := by
  refine ⟨by with_unfolding_all rfl, by with_unfolding_all rfl, ?_⟩
  norm_num [c1s, c1cfg, getitemRat, getitem, dlookup, scalar, squeezeVal, Value.toRat]

/-- C1, amended: for every Component with update frequency `f`, timestep
`dt` and elapsed simulated time `t`, a call to `compute` without
`ForcedCompute` invokes the kernel iff `int(t/f) ≠ int((t-dt)/f)` where
`int` truncates toward zero as Python's `int()` does (this agrees with the
claim's `floor` whenever both quotients are nonnegative); when the two
truncations agree, `compute` returns immediately with `Inc` and `State`
unchanged; a call with `ForcedCompute` bypasses the gate and always
invokes the kernel. -/
theorem C1_trunc_gate (cfg : CompConfig) (s : CompState)
    (hf : 0 < cfg.update_frequency) (hdt : dmem s.params "dt" = true) :
    ((compute cfg false s).1 = true ↔
      pyInt (s.elapsedTime / cfg.update_frequency)
        ≠ pyInt ((s.elapsedTime - getitemRat s "dt") / cfg.update_frequency))
    ∧ (pyInt (s.elapsedTime / cfg.update_frequency)
        = pyInt ((s.elapsedTime - getitemRat s "dt") / cfg.update_frequency) →
        compute cfg false s = (false, Except.ok s))
    ∧ (compute cfg true s).1 = true := by
  refine ⟨?_, ?_, ?_⟩
  · rw [compute_fst]
    exact invoked_false_gate cfg s
  · intro h
    apply compute_not_invoked
    unfold invoked
    rw [if_pos h]
    rfl
  · rw [compute_fst]
    exact invoked_forced cfg s

/-- Witness for the amended gate theorem at a concrete boundary-crossing
input: `f = 100`, `dt = 30`, `t = 100` crosses the boundary
(`int(100/100) = 1 ≠ 0 = int(70/100)`), so the kernel is invoked. -/
def c1ws : CompState := { c1s with elapsedTime := 100 }

theorem C1_trunc_gate_witness :
    0 < c1cfg.update_frequency ∧ dmem c1ws.params "dt" = true
    ∧ ((compute c1cfg false c1ws).1 = true ↔
        pyInt (c1ws.elapsedTime / c1cfg.update_frequency)
          ≠ pyInt ((c1ws.elapsedTime - getitemRat c1ws "dt") / c1cfg.update_frequency)) :=
  ⟨by norm_num [c1cfg], by with_unfolding_all rfl,
    (C1_trunc_gate c1cfg c1ws (by norm_num [c1cfg]) (by with_unfolding_all rfl)).1⟩

/-- C2: for a Component with stepping scheme `implicit`, every key also
present in `State.Old` is bound in the assembled kernel input to its
`State.Old` value (the last `Input.update(self.state.Old)` wins), even
when `State.Now` holds the key with a different value. -/
theorem C2_implicit_uses_old (cfg : CompConfig) (s : CompState)
    (himp : cfg.SteppingScheme = "implicit")
    (hnd : (dkeys s.stateOld).Nodup)
    (k : String) (hk : dmem s.stateOld k = true) :
    dlookup (buildInput cfg s) k = dlookup s.stateOld k := by
  rcases (dmem_iff_lookup _ _).mp hk with ⟨v, hv⟩
  unfold buildInput
  rw [himp]
  have hne : ("implicit" : String) ≠ "semi-implicit" := by decide
  rw [if_neg hne, if_pos rfl, dlookup_dupdate_mem _ _ _ _ hnd hv, hv]

/-- Witness for the implicit-scheme input assembly: `T` is 1 in `Now` and
2 in `Old`; the assembled input carries 2. -/
def c2cfg : CompConfig := { c1cfg with SteppingScheme := "implicit" }

def c2s : CompState := { c1s with
  stateNow := [("T", scalar 1)], stateOld := [("T", scalar 2)] }

theorem C2_implicit_uses_old_witness :
    c2cfg.SteppingScheme = "implicit" ∧ (dkeys c2s.stateOld).Nodup
    ∧ dmem c2s.stateOld "T" = true
    ∧ dlookup (buildInput c2cfg c2s) "T" = dlookup c2s.stateOld "T"
    ∧ dlookup c2s.stateOld "T" = some (scalar 2)
    ∧ dlookup c2s.stateNow "T" = some (scalar 1) :=
  ⟨rfl, by simp [c2s, c1s, dkeys], by with_unfolding_all rfl,
    C2_implicit_uses_old c2cfg c2s rfl (by simp [c2s, c1s, dkeys]) "T"
      (by with_unfolding_all rfl),
    by with_unfolding_all rfl, by with_unfolding_all rfl⟩

theorem dmem_dremove_false (m : FieldMap) (k k' : String)
    (h : dmem m k' = false) : dmem (dremove m k) k' = false := by
  by_cases he : k' = k
  · rw [dmem_false_iff_lookup, he, dlookup_dremove_self]
  · rw [dmem_false_iff_lookup, dlookup_dremove_ne _ _ _ he,
      ← dmem_false_iff_lookup]
    exact h

theorem extract_missing_err (l : List String) (inc out : FieldMap) (k : String)
    (hk : k ∈ l) (hmiss : dmem out (k ++ "inc") = false) :
    ∃ i o, extractIncs l inc out = ExtractResult.missing i o := by
  induction l generalizing inc out with
  | nil => cases hk
  | cons p rest ih =>
    unfold extractIncs
    cases hp : dpop out (p ++ "inc") with
    | none => exact ⟨inc, out, rfl⟩
    | some vo =>
      have hpm : dmem out (p ++ "inc") = true := by
        unfold dpop at hp
        cases hl : dlookup out (p ++ "inc")
        · rw [hl] at hp; cases hp
        · rw [dmem_iff_lookup]; exact ⟨_, hl⟩
      have hkr : k ∈ rest := by
        rcases List.mem_cons.mp hk with he | hr
        · rw [he] at hmiss
          rw [hmiss] at hpm
          cases hpm
        · exact hr
      have ho : vo.2 = dremove out (p ++ "inc") := by
        unfold dpop at hp
        cases hl : dlookup out (p ++ "inc")
        · rw [hl] at hp; cases hp
        · rw [hl] at hp
          cases hp.symm
          rfl
      have hmiss' : dmem vo.2 (k ++ "inc") = false := by
        rw [ho]
        exact dmem_dremove_false _ _ _ hmiss
      exact ih (dinsert inc p vo.1) vo.2 hkr hmiss'

/-- C4: whenever the kernel actually runs and its output lacks the
increment key `<name>inc` for some declared Prognostic field `name`,
`compute` fails (the `KeyError` from `Output.pop` propagates) instead of
completing. -/
theorem C4_missing_increment_fails (cfg : CompConfig) (forced : Bool)
    (s : CompState) (name : String)
    (hinv : invoked cfg forced s = true)
    (hmem : name ∈ cfg.Prognostic)
    (hmiss : dmem (buildOutput cfg s) (name ++ "inc") = false) :
    ∃ e, compute cfg forced s = (true, Except.error e) := by
  unfold compute
  rw [if_neg (by simp [hinv])]
  dsimp only
  rcases extract_missing_err cfg.Prognostic s.Inc (buildOutput cfg s) name hmem hmiss
    with ⟨i, o, hE⟩
  rw [hE]
  exact ⟨_, rfl⟩

/-- Witness component for the missing-increment error: `T` is Prognostic
but the kernel only returns a diagnostic `q`, so `Tinc` is absent. -/
def c4cfg : CompConfig := {
  Prognostic := ["T"], Fixed := [], SteppingScheme := "explicit",
  ToExtension := [], FromExtension := ["q"], driver := (fun _ => [scalar 1]),
  update_frequency := 100, OutputFreq := 86400,
  nlev := 1, nlat := 1, nlon := 1, knownDim := (fun _ => "") }

def c4s : CompState := {
  params := [("dt", scalar 30)], gridv := [], stateNow := [("T", scalar 5)],
  stateOld := [("T", scalar 5)], elapsedTime := 0, Inc := [], outputCount := 0 }

theorem C4_missing_increment_fails_witness :
    invoked c4cfg true c4s = true ∧ "T" ∈ c4cfg.Prognostic
    ∧ dmem (buildOutput c4cfg c4s) ("T" ++ "inc") = false
    ∧ ∃ e, compute c4cfg true c4s = (true, Except.error e) :=
  ⟨by with_unfolding_all rfl, by simp [c4cfg], by with_unfolding_all rfl,
    C4_missing_increment_fails c4cfg true c4s "T" (by with_unfolding_all rfl)
      (by simp [c4cfg]) (by with_unfolding_all rfl)⟩

theorem extract_first_missing (pre : List String) (rest : List String)
    (name : String) (inc out : FieldMap)
    (hnd : (pre.map (fun k => k ++ "inc")).Nodup)
    (hpre : ∀ k ∈ pre, dmem out (k ++ "inc") = true)
    (hmiss : dmem out (name ++ "inc") = false) :
    ∃ inc' out', extractIncs (pre ++ name :: rest) inc out
        = ExtractResult.missing inc' out'
      ∧ (∀ k ∈ pre, dlookup inc' k = dlookup out (k ++ "inc"))
      ∧ (∀ j, j ∉ pre → dlookup inc' j = dlookup inc j) := by
  induction pre generalizing inc out with
  | nil =>
    refine ⟨inc, out, ?_, by simp, fun j _ => rfl⟩
    show extractIncs (name :: rest) inc out = ExtractResult.missing inc out
    unfold extractIncs dpop
    rw [(dmem_false_iff_lookup _ _).mp hmiss]
  | cons p pre' ih =>
    rw [List.map_cons, List.nodup_cons] at hnd
    have hpp : p ∉ pre' := fun hp =>
      hnd.1 (List.mem_map.mpr ⟨p, hp, rfl⟩)
    have hne : ∀ k ∈ pre', k ++ "inc" ≠ p ++ "inc" := by
      intro k hk he
      exact hnd.1 (he ▸ List.mem_map.mpr ⟨k, hk, rfl⟩)
    rcases (dmem_iff_lookup _ _).mp (hpre p (List.mem_cons_self p pre')) with ⟨v, hv⟩
    have hpop : dpop out (p ++ "inc") = some (v, dremove out (p ++ "inc")) := by
      unfold dpop
      rw [hv]
    have hpre' : ∀ k ∈ pre', dmem (dremove out (p ++ "inc")) (k ++ "inc") = true := by
      intro k hk
      rw [dmem_iff_lookup, dlookup_dremove_ne _ _ _ (hne k hk)]
      exact (dmem_iff_lookup _ _).mp (hpre k (List.mem_cons_of_mem p hk))
    have hmiss' : dmem (dremove out (p ++ "inc")) (name ++ "inc") = false :=
      dmem_dremove_false _ _ _ hmiss
    rcases ih (dinsert inc p v) (dremove out (p ++ "inc")) hnd.2 hpre' hmiss'
      with ⟨inc', out', hE, h1, h2⟩
    refine ⟨inc', out', ?_, ?_, ?_⟩
    · show extractIncs (p :: (pre' ++ name :: rest)) inc out
          = ExtractResult.missing inc' out'
      unfold extractIncs
      rw [hpop]
      exact hE
    · intro k hk
      rcases List.mem_cons.mp hk with he | hk'
      · rw [he, h2 p hpp, dlookup_dinsert_self, hv]
      · rw [h1 k hk', dlookup_dremove_ne _ _ _ (hne k hk')]
    · intro j hj
      have hj1 : j ≠ p := fun he => hj (he ▸ List.mem_cons_self p pre')
      have hj2 : j ∉ pre' := fun hm => hj (List.mem_cons_of_mem p hm)
      rw [h2 j hj2, dlookup_dinsert_ne _ _ _ _ hj1]

/-- C10: when the kernel runs and its output carries increments for the
first `i` declared Prognostic fields but lacks the increment of the next
one, `compute` raises after `Inc` has already been overwritten with the
new kernel increments for all preceding Prognostic fields (later entries
untouched), and before any diagnostic has been merged into `State.Now`. -/
theorem C10_error_midway_overwrite (cfg : CompConfig) (forced : Bool)
    (s : CompState) (pre rest : List String) (name : String)
    (hinv : invoked cfg forced s = true)
    (hsplit : cfg.Prognostic = pre ++ name :: rest)
    (hnd : (pre.map (fun k => k ++ "inc")).Nodup)
    (hpre : ∀ k ∈ pre, dmem (buildOutput cfg s) (k ++ "inc") = true)
    (hmiss : dmem (buildOutput cfg s) (name ++ "inc") = false) :
    ∃ errSt, compute cfg forced s = (true, Except.error errSt)
      ∧ errSt.stateNow = s.stateNow
      ∧ (∀ k ∈ pre, dlookup errSt.Inc k = dlookup (buildOutput cfg s) (k ++ "inc"))
      ∧ (∀ j, j ∉ pre → dlookup errSt.Inc j = dlookup s.Inc j) := by
  rcases extract_first_missing pre rest name s.Inc (buildOutput cfg s) hnd hpre hmiss
    with ⟨inc', out', hE, h1, h2⟩
  refine ⟨{ s with Inc := inc' }, ?_, rfl, h1, h2⟩
  unfold compute
  rw [if_neg (by simp [hinv])]
  dsimp only
  rw [hsplit, hE]

/-- Witness component for the partial-overwrite error: Prognostic order
is `a, b, c`; the kernel returns `ainc` and a diagnostic `d` but no
`binc`, so `compute` raises with `Inc[a]` freshly overwritten, `Inc[c]`
untouched, and `State.Now` unchanged. -/
def c10cfg : CompConfig := {
  Prognostic := ["a", "b", "c"], Fixed := [], SteppingScheme := "explicit",
  ToExtension := [], FromExtension := ["ainc", "d"],
  driver := (fun _ => [scalar 5, scalar 6]),
  update_frequency := 100, OutputFreq := 86400,
  nlev := 1, nlat := 1, nlon := 1, knownDim := (fun _ => "") }

def c10s : CompState := {
  params := [("dt", scalar 30)], gridv := [],
  stateNow := [("a", scalar 1), ("b", scalar 2), ("c", scalar 3)],
  stateOld := [("a", scalar 1), ("b", scalar 2), ("c", scalar 3)],
  elapsedTime := 0, Inc := [("a", scalar 9), ("c", scalar 8)], outputCount := 0 }

theorem C10_error_midway_overwrite_witness :
    invoked c10cfg true c10s = true
    ∧ c10cfg.Prognostic = ["a"] ++ "b" :: ["c"]
    ∧ dmem (buildOutput c10cfg c10s) ("a" ++ "inc") = true
    ∧ dmem (buildOutput c10cfg c10s) ("b" ++ "inc") = false
    ∧ ∃ errSt, compute c10cfg true c10s = (true, Except.error errSt)
      ∧ errSt.stateNow = c10s.stateNow
      ∧ (∀ k ∈ ["a"], dlookup errSt.Inc k = dlookup (buildOutput c10cfg c10s) (k ++ "inc"))
      ∧ (∀ j, j ∉ ["a"] → dlookup errSt.Inc j = dlookup c10s.Inc j) :=
  ⟨by with_unfolding_all rfl, by simp [c10cfg], by with_unfolding_all rfl,
    by with_unfolding_all rfl,
    C10_error_midway_overwrite c10cfg true c10s ["a"] ["c"] "b"
      (by with_unfolding_all rfl) (by simp [c10cfg]) (by simp)
      (by intro k hk; rcases List.mem_singleton.mp hk with rfl; with_unfolding_all rfl)
      (by with_unfolding_all rfl)⟩

theorem dmem_removeAll_absent (keys : List String) (m : FieldMap) (k : String)
    (h : dmem m k = false) : dmem (removeAll keys m) k = false := by
  induction keys generalizing m with
  | nil => exact h
  | cons p rest ih =>
    show dmem (removeAll rest (dremove m p)) k = false
    exact ih _ (dmem_dremove_false _ _ _ h)

theorem dmem_removeAll_of_mem (keys : List String) (m : FieldMap) (k : String)
    (h : k ∈ keys) : dmem (removeAll keys m) k = false := by
  induction keys generalizing m with
  | nil => cases h
  | cons p rest ih =>
    show dmem (removeAll rest (dremove m p)) k = false
    rcases List.mem_cons.mp h with he | hr
    · apply dmem_removeAll_absent
      rw [dmem_false_iff_lookup, he, dlookup_dremove_self]
    · exact ih _ hr

theorem dlookup_removeAll_not_mem (keys : List String) (m : FieldMap)
    (k : String) (h : k ∉ keys) :
    dlookup (removeAll keys m) k = dlookup m k := by
  induction keys generalizing m with
  | nil => rfl
  | cons p rest ih =>
    have h1 : k ≠ p := fun he => h (he ▸ List.mem_cons_self p rest)
    have h2 : k ∉ rest := fun hm => h (List.mem_cons_of_mem p hm)
    show dlookup (removeAll rest (dremove m p)) k = dlookup m k
    rw [ih _ h2, dlookup_dremove_ne _ _ _ h1]

theorem dmem_removeAll_imp (keys : List String) (m : FieldMap) (k : String)
    (h : dmem (removeAll keys m) k = true) :
    dmem m k = true ∧ k ∉ keys := by
  by_cases hk : k ∈ keys
  · rw [dmem_removeAll_of_mem keys m k hk] at h
    cases h
  · refine ⟨?_, hk⟩
    rw [dmem_iff_lookup] at h ⊢
    rw [dlookup_removeAll_not_mem keys m k hk] at h
    exact h

/-- C5: for every Fixed field, a `compute` call that runs the kernel and
completes leaves no entry for that field in `Inc` (its increment is
popped and discarded), and does not update the field's value in
`State.Now` from the kernel output (the output entry is discarded before
the diagnostics merge). -/
theorem C5_fixed_fields_untouched (cfg : CompConfig) (forced : Bool)
    (s : CompState) (f : String) (s' : CompState)
    (hf : f ∈ cfg.Fixed)
    (hok : compute cfg forced s = (true, Except.ok s')) :
    dmem s'.Inc f = false ∧ dlookup s'.stateNow f = dlookup s.stateNow f := by
  unfold compute at hok
  by_cases hi : invoked cfg forced s = false
  · rw [if_pos hi] at hok
    have := congrArg Prod.fst hok
    simp at this
  · rw [if_neg hi] at hok
    dsimp only at hok
    cases hE : extractIncs cfg.Prognostic s.Inc (buildOutput cfg s) with
    | missing i o =>
      rw [hE] at hok
      have := congrArg Prod.snd hok
      simp at this
    | ok inc out =>
      rw [hE] at hok
      have hs : s' =
          { s with
            Inc := removeAll cfg.Fixed inc
            stateNow := stateUpdate s.stateNow (removeAll cfg.Fixed out) } := by
        have h2 := congrArg Prod.snd hok
        dsimp at h2
        injection h2 with h3
        exact h3.symm
      rw [hs]
      refine ⟨dmem_removeAll_of_mem _ _ _ hf, ?_⟩
      show dlookup (stateUpdate s.stateNow (removeAll cfg.Fixed out)) f
          = dlookup s.stateNow f
      unfold stateUpdate
      exact dlookup_dupdate_not_mem _ _ _ (dmem_removeAll_of_mem _ _ _ hf)

/-- Witness component for Fixed-field removal: `T` and `S` are
Prognostic, `S` is Fixed; the kernel emits `Tinc`, `Sinc` and a
diagnostic value for `S`, yet after `compute` the `Inc` map has no `S`
entry and `State.Now[S]` is unchanged. -/
def c5cfg : CompConfig := {
  Prognostic := ["T", "S"], Fixed := ["S"], SteppingScheme := "explicit",
  ToExtension := [], FromExtension := ["Tinc", "Sinc", "S"],
  driver := (fun _ => [scalar 1, scalar 2, scalar 3]),
  update_frequency := 100, OutputFreq := 86400,
  nlev := 1, nlat := 1, nlon := 1, knownDim := (fun _ => "") }

def c5s : CompState := {
  params := [("dt", scalar 30)], gridv := [],
  stateNow := [("T", scalar 5), ("S", scalar 7)],
  stateOld := [("T", scalar 5), ("S", scalar 7)],
  elapsedTime := 0, Inc := [], outputCount := 0 }

def c5sFinal : CompState := {
  params := [("dt", scalar 30)], gridv := [],
  stateNow := [("T", scalar 5), ("S", scalar 7)],
  stateOld := [("T", scalar 5), ("S", scalar 7)],
  elapsedTime := 0, Inc := [("T", scalar 1)], outputCount := 0 }

theorem C5_fixed_fields_untouched_witness :
    "S" ∈ c5cfg.Fixed
    ∧ compute c5cfg true c5s = (true, Except.ok c5sFinal)
    ∧ dmem c5sFinal.Inc "S" = false
    ∧ dlookup c5sFinal.stateNow "S" = dlookup c5s.stateNow "S" :=
  ⟨by simp [c5cfg], by with_unfolding_all rfl,
    (C5_fixed_fields_untouched c5cfg true c5s "S" c5sFinal (by simp [c5cfg])
      (by with_unfolding_all rfl)).1,
    (C5_fixed_fields_untouched c5cfg true c5s "S" c5sFinal (by simp [c5cfg])
      (by with_unfolding_all rfl)).2⟩

theorem dmem_cons (p : String × Value) (rest : FieldMap) (k : String) :
    dmem (p :: rest) k = true ↔ p.1 = k ∨ dmem rest k = true := by
  by_cases h : p.1 = k <;> simp [dmem, dlookup, h]

theorem dmem_dinsert_imp (m : FieldMap) (k' : String) (v : Value) (k : String)
    (h : dmem (dinsert m k' v) k = true) : k = k' ∨ dmem m k = true := by
  by_cases he : k = k'
  · exact Or.inl he
  · right
    rw [dmem_iff_lookup] at h ⊢
    rw [dlookup_dinsert_ne _ _ _ _ he] at h
    exact h

theorem dmem_mergeInc_imp (inc ext : FieldMap) (k : String)
    (h : dmem (mergeInc inc ext) k = true) :
    dmem inc k = true ∨ dmem ext k = true := by
  induction ext generalizing inc with
  | nil => exact Or.inl h
  | cons p rest ih =>
    have hstep : mergeInc inc (p :: rest)
        = mergeInc (match dlookup inc p.1 with
            | some v => dinsert inc p.1 (valAdd v p.2)
            | none => dinsert inc p.1 p.2) rest := rfl
    rw [hstep] at h
    rcases ih _ h with h1 | h1
    · rcases hv : dlookup inc p.1 with _ | v
      · rw [hv] at h1
        rcases dmem_dinsert_imp _ _ _ _ h1 with he | hm
        · exact Or.inr ((dmem_cons p rest k).mpr (Or.inl he.symm))
        · exact Or.inl hm
      · rw [hv] at h1
        rcases dmem_dinsert_imp _ _ _ _ h1 with he | hm
        · exact Or.inr ((dmem_cons p rest k).mpr (Or.inl he.symm))
        · exact Or.inl hm
    · exact Or.inr ((dmem_cons p rest k).mpr (Or.inr h1))

theorem extract_ok_origin (l : List String) (inc out : FieldMap)
    (inc' out' : FieldMap)
    (hE : extractIncs l inc out = ExtractResult.ok inc' out')
    (k : String) (h : dmem inc' k = true) :
    dmem inc k = true ∨ k ∈ l := by
  induction l generalizing inc out with
  | nil =>
    unfold extractIncs at hE
    injection hE with h1 h2
    rw [h1]
    exact Or.inl h
  | cons p rest ih =>
    unfold extractIncs at hE
    cases hp : dpop out (p ++ "inc") with
    | none =>
      rw [hp] at hE
      cases hE
    | some vo =>
      rw [hp] at hE
      rcases ih (dinsert inc p vo.1) vo.2 hE with h1 | h1
      · rcases dmem_dinsert_imp _ _ _ _ h1 with he | hm
        · exact Or.inr (he ▸ List.mem_cons_self p rest)
        · exact Or.inl hm
      · exact Or.inr (List.mem_cons_of_mem p h1)

theorem IncInv_compute (cfg : CompConfig) (forced b : Bool)
    (s s' : CompState) (hinv : IncInv cfg s)
    (hok : compute cfg forced s = (b, Except.ok s')) : IncInv cfg s' := by
  unfold compute at hok
  by_cases hi : invoked cfg forced s = false
  · rw [if_pos hi] at hok
    have h2 := congrArg Prod.snd hok
    dsimp at h2
    injection h2 with h3
    rw [← h3]
    exact hinv
  · rw [if_neg hi] at hok
    dsimp only at hok
    cases hE : extractIncs cfg.Prognostic s.Inc (buildOutput cfg s) with
    | missing i o =>
      rw [hE] at hok
      have := congrArg Prod.snd hok
      simp at this
    | ok inc out =>
      rw [hE] at hok
      have h2 := congrArg Prod.snd hok
      dsimp at h2
      injection h2 with h3
      rw [← h3]
      intro k hk
      rcases dmem_removeAll_imp _ _ _ hk with ⟨hk1, hk2⟩
      rcases extract_ok_origin _ _ _ _ _ hE k hk1 with h4 | h4
      · exact ⟨(hinv k h4).1, hk2⟩
      · exact ⟨h4, hk2⟩

theorem setitem_Inc (cfg : CompConfig) (s : CompState) (k : String)
    (v : Value) (s' : CompState) (h : setitem cfg s k v = some s') :
    s'.Inc = s.Inc := by
  unfold setitem at h
  split_ifs at h with h1 h2 h3 h4
  · injection h with h'; rw [← h']
  · injection h with h'; rw [← h']
  · cases hr : reshapeVal v [cfg.nlat, cfg.nlon] with
    | none => rw [hr] at h; cases h
    | some v' =>
      rw [hr] at h
      injection h with h'
      rw [← h']
  · cases hr : reshapeVal v [cfg.nlev, cfg.nlat, cfg.nlon] with
    | none => rw [hr] at h; cases h
    | some v' =>
      rw [hr] at h
      injection h with h'
      rw [← h']

theorem setitemForce_Inc (cfg : CompConfig) (s : CompState) (k : String)
    (v : Value) : (setitemForce cfg s k v).Inc = s.Inc := by
  unfold setitemForce
  cases hs : setitem cfg s k v with
  | none => rfl
  | some s' => exact setitem_Inc cfg s k v s' hs

theorem calUpdate_Inc (cfg : CompConfig) (s : CompState) :
    (calUpdate cfg s).Inc = s.Inc := by
  unfold calUpdate
  dsimp only
  split
  · rw [setitemForce_Inc, setitemForce_Inc]
  · rw [setitemForce_Inc]

theorem IncInv_stepIter (cfg : CompConfig) (ext : FieldMap)
    (s s' : CompState)
    (hext : ∀ k, dmem ext k = true → k ∈ cfg.Prognostic ∧ k ∉ cfg.Fixed)
    (hinv : IncInv cfg s)
    (h : stepIter cfg ext s = Except.ok s') : IncInv cfg s' := by
  unfold stepIter at h
  dsimp only at h
  have hinv2 : IncInv cfg (advance cfg { s with Inc := mergeInc s.Inc ext }) := by
    intro k hk
    rcases dmem_mergeInc_imp _ _ _ hk with h1 | h1
    · exact hinv k h1
    · exact hext k h1
  rcases hc : compute cfg false (advance cfg { s with Inc := mergeInc s.Inc ext })
    with ⟨b, r⟩
  rw [hc] at h
  cases r with
  | error e => cases h
  | ok s3 =>
    have hinv3 : IncInv cfg s3 := IncInv_compute cfg false b _ s3 hinv2 hc
    dsimp only at h
    intro k hk
    apply hinv3 k
    have hIncEq : s'.Inc = s3.Inc := by
      have h5 := h
      injection h5 with h6
      rw [← h6]
      split
      · show (calUpdate cfg s3).Inc = s3.Inc
        exact calUpdate_Inc cfg s3
      · exact calUpdate_Inc cfg s3
    rw [← hIncEq]
    exact hk

/-- C6, amended: the `Inc` key invariant — every key of `Inc` is a
declared Prognostic field not in the Fixed set — holds after the
construction-time forced compute, is preserved by every completing
`compute` call, and is preserved by every completing `step` iteration
whose `ExternalInc` keys are themselves Prognostic-and-not-Fixed. (As the
counterexample shows, a step iteration given an `ExternalInc` key outside
`Prognostic \ Fixed` breaks the invariant, so the restriction on the
externally supplied keys is necessary.) -/
theorem C6_inc_keys_invariant (cfg : CompConfig) (s : CompState) :
    (∀ b s', constructCompute cfg s = (b, Except.ok s') → IncInv cfg s')
    ∧ (∀ forced b s', IncInv cfg s → compute cfg forced s = (b, Except.ok s') →
        IncInv cfg s')
    ∧ (∀ ext s', (∀ k, dmem ext k = true → k ∈ cfg.Prognostic ∧ k ∉ cfg.Fixed) →
        IncInv cfg s → stepIter cfg ext s = Except.ok s' → IncInv cfg s') := by
  refine ⟨?_, ?_, ?_⟩
  · intro b s' h
    apply IncInv_compute cfg true b { s with Inc := [] } s' _ h
    intro k hk
    cases hk
  · intro forced b s' hinv h
    exact IncInv_compute cfg forced b s s' hinv h
  · intro ext s' hext hinv h
    exact IncInv_stepIter cfg ext s s' hext hinv h

/-- Concrete component refuting the claim's "arbitrary ExternalInc"
clause: `T` is the only Prognostic field, yet a step iteration given the
external increment key `foo` completes with `foo` still in `Inc`
(the merge created the entry, the gated-off compute left it, and nothing
removes it). -/
def c6cfg : CompConfig := {
  Prognostic := ["T"], Fixed := [], SteppingScheme := "explicit",
  ToExtension := [], FromExtension := ["Tinc"], driver := (fun _ => [scalar 1]),
  update_frequency := 100, OutputFreq := 86400,
  nlev := 1, nlat := 1, nlon := 1, knownDim := (fun _ => "") }

def c6cs : CompState := {
  params := [("dt", scalar 30), ("calday", scalar 0), ("lod", scalar 86400),
    ("daysperyear", scalar 365)],
  gridv := [], stateNow := [("T", scalar 5)], stateOld := [("T", scalar 5)],
  elapsedTime := 0, Inc := [("T", scalar 1)], outputCount := 0 }

def c6csFinal : CompState := {
  params := [("dt", scalar 30), ("lod", scalar 86400), ("daysperyear", scalar 365),
    ("calday", scalar (1/2880))],
  gridv := [], stateNow := [("T", scalar 6)], stateOld := [("T", scalar 5)],
  elapsedTime := 30, Inc := [("T", scalar 1), ("foo", scalar 2)], outputCount := 0 }

/-- C6, counterexample: after one iteration of `step` with the arbitrary
external increment `{foo: 2}` (update frequency 100 keeps the recompute
gate closed at `t = 30`), the key `foo` sits in `Inc` although it is not
in the Component's Prognostic set, so the claimed invariant fails for
arbitrary `ExternalInc` arguments. -/
theorem C6_arbitrary_external_counterexample :
    stepIter c6cfg [("foo", scalar 2)] c6cs = Except.ok c6csFinal
    ∧ dmem c6csFinal.Inc "foo" = true
    ∧ ¬("foo" ∈ c6cfg.Prognostic ∧ "foo" ∉ c6cfg.Fixed) := by
  refine ⟨by with_unfolding_all rfl, by with_unfolding_all rfl, ?_⟩
  intro hc
  simp [c6cfg] at hc

def c6ws : CompState := { c6cs with Inc := [] }

def c6wsFinal : CompState := {
  params := [("dt", scalar 30), ("lod", scalar 86400), ("daysperyear", scalar 365),
    ("calday", scalar (1/2880))],
  gridv := [], stateNow := [("T", scalar 7)], stateOld := [("T", scalar 5)],
  elapsedTime := 30, Inc := [("T", scalar 2)], outputCount := 0 }

theorem C6_inc_keys_invariant_witness :
    (∀ k, dmem [("T", scalar 2)] k = true → k ∈ c6cfg.Prognostic ∧ k ∉ c6cfg.Fixed)
    ∧ IncInv c6cfg c6ws
    ∧ stepIter c6cfg [("T", scalar 2)] c6ws = Except.ok c6wsFinal
    ∧ IncInv c6cfg c6wsFinal := by
  have hext : ∀ k, dmem [("T", scalar 2)] k = true →
      k ∈ c6cfg.Prognostic ∧ k ∉ c6cfg.Fixed := by
    intro k hk
    have : ("T" : String) = k := by
      by_cases he : ("T" : String) = k
      · exact he
      · rw [dmem_iff_lookup] at hk
        rcases hk with ⟨v, hv⟩
        unfold dlookup at hv
        rw [if_neg he] at hv
        cases hv
    rw [← this]
    simp [c6cfg]
  have hinv : IncInv c6cfg c6ws := by
    intro k hk
    cases hk
  have hrun : stepIter c6cfg [("T", scalar 2)] c6ws = Except.ok c6wsFinal := by
    with_unfolding_all rfl
  exact ⟨hext, hinv, hrun,
    (C6_inc_keys_invariant c6cfg c6ws).2.2 [("T", scalar 2)] c6wsFinal hext hinv hrun⟩

theorem dlookup_mergeInc_not_mem (inc ext : FieldMap) (k : String)
    (h : dmem ext k = false) :
    dlookup (mergeInc inc ext) k = dlookup inc k := by
  induction ext generalizing inc with
  | nil => rfl
  | cons p rest ih =>
    have h1 : p.1 ≠ k := by
      intro he
      simp [dmem, dlookup, he] at h
    have h2 : dmem rest k = false := by
      simpa [dmem, dlookup, h1] using h
    have hstep : mergeInc inc (p :: rest)
        = mergeInc (match dlookup inc p.1 with
            | some v => dinsert inc p.1 (valAdd v p.2)
            | none => dinsert inc p.1 p.2) rest := rfl
    rw [hstep, ih _ h2]
    cases hv : dlookup inc p.1 with
    | none => exact dlookup_dinsert_ne _ _ _ _ (fun he => h1 he.symm)
    | some v => exact dlookup_dinsert_ne _ _ _ _ (fun he => h1 he.symm)

theorem dlookup_mergeInc_mem (inc ext : FieldMap) (k : String) (v : Value)
    (hnd : (dkeys ext).Nodup) (h : dlookup ext k = some v) :
    dlookup (mergeInc inc ext) k
      = some ((dlookup inc k).elim v (fun w => valAdd w v)) := by
  induction ext generalizing inc with
  | nil => cases h
  | cons p rest ih =>
    have hk : dkeys (p :: rest) = p.1 :: dkeys rest := rfl
    rw [hk, List.nodup_cons] at hnd
    have hstep : mergeInc inc (p :: rest)
        = mergeInc (match dlookup inc p.1 with
            | some v => dinsert inc p.1 (valAdd v p.2)
            | none => dinsert inc p.1 p.2) rest := rfl
    rw [hstep]
    by_cases h1 : p.1 = k
    · subst h1
      have hv : v = p.2 := by
        rw [dlookup, if_pos rfl] at h
        exact (Option.some.inj h).symm
      have hnm : dmem rest p.1 = false := by
        cases hm : dmem rest p.1
        · rfl
        · exact absurd ((dmem_iff_keys rest p.1).mp hm) hnd.1
      rw [dlookup_mergeInc_not_mem _ _ _ hnm]
      cases hw : dlookup inc p.1 with
      | none =>
        show dlookup (dinsert inc p.1 p.2) p.1
            = some (Option.elim none v (fun w => valAdd w v))
        rw [dlookup_dinsert_self, hv]
        rfl
      | some w =>
        show dlookup (dinsert inc p.1 (valAdd w p.2)) p.1
            = some (Option.elim (some w) v (fun u => valAdd u v))
        rw [dlookup_dinsert_self, hv]
        rfl
    · have h2 : dlookup rest k = some v := by
        rw [dlookup, if_neg h1] at h
        exact h
      have hne : k ≠ p.1 := fun he => h1 he.symm
      cases hw : dlookup inc p.1 with
      | none =>
        show dlookup (mergeInc (dinsert inc p.1 p.2) rest) k = _
        rw [ih _ hnd.2 h2, dlookup_dinsert_ne _ _ _ _ hne]
      | some w =>
        show dlookup (mergeInc (dinsert inc p.1 (valAdd w p.2)) rest) k = _
        rw [ih _ hnd.2 h2, dlookup_dinsert_ne _ _ _ _ hne]

theorem stepIter_skip_Inc (cfg : CompConfig) (ext : FieldMap)
    (s s' : CompState)
    (hgate : invoked cfg false
      (advance cfg { s with Inc := mergeInc s.Inc ext }) = false)
    (h : stepIter cfg ext s = Except.ok s') :
    s'.Inc = mergeInc s.Inc ext := by
  unfold stepIter at h
  dsimp only at h
  rw [compute_not_invoked _ _ _ hgate] at h
  dsimp only at h
  injection h with h6
  rw [← h6]
  split
  · show (calUpdate cfg (advance cfg { s with Inc := mergeInc s.Inc ext })).Inc = _
    rw [calUpdate_Inc]
    rfl
  · rw [calUpdate_Inc]
    rfl

/-- C3: in each iteration of `step`, every field of the `ExternalInc`
argument is merged into the Component's `Inc` by addition when already
present and by creating the entry otherwise; in particular, two
consecutive `step(1, {T: dT1})` calls with no kernel-originated increment
for `T` in between (the recompute gate stays closed, so the kernel never
overwrites `Inc`) leave `Inc[T] = dT1 + dT1` at the point just after the
second call's merge — i.e. right before state advancement consumes it —
accumulating rather than overwriting. -/
theorem C3_external_inc_accumulation (cfg : CompConfig) (s : CompState)
    (dT1 : Value) (s₁ : CompState)
    (hT0 : dlookup s.Inc "T" = none)
    (hgate : invoked cfg false
      (advance cfg { s with Inc := mergeInc s.Inc [("T", dT1)] }) = false)
    (h1 : stepIter cfg [("T", dT1)] s = Except.ok s₁) :
    (∀ (inc ext : FieldMap) (k : String) (v : Value), (dkeys ext).Nodup →
        dlookup ext k = some v →
        dlookup (mergeInc inc ext) k
          = some ((dlookup inc k).elim v (fun w => valAdd w v)))
    ∧ dlookup s₁.Inc "T" = some dT1
    ∧ dlookup (mergeInc s₁.Inc [("T", dT1)]) "T" = some (valAdd dT1 dT1) := by
  have hIncEq : s₁.Inc = mergeInc s.Inc [("T", dT1)] :=
    stepIter_skip_Inc cfg [("T", dT1)] s s₁ hgate h1
  have hsingle : dlookup ([("T", dT1)] : FieldMap) "T" = some dT1 := by
    unfold dlookup
    rw [if_pos rfl]
  have hnd : (dkeys ([("T", dT1)] : FieldMap)).Nodup := by
    simp [dkeys]
  have h2 : dlookup s₁.Inc "T" = some dT1 := by
    rw [hIncEq, dlookup_mergeInc_mem _ _ _ _ hnd hsingle, hT0]
    rfl
  refine ⟨fun inc ext k v hn hv => dlookup_mergeInc_mem inc ext k v hn hv, h2, ?_⟩
  rw [dlookup_mergeInc_mem _ _ _ _ hnd hsingle, h2]
  rfl

/-- Witness component for external-increment accumulation: `T` Prognostic,
empty initial `Inc`, update frequency 100 with `dt = 30` so the gate stays
closed during the iteration; the external increment 2 lands in `Inc` and a
second merge doubles it. -/
def c3cfg : CompConfig := {
  Prognostic := ["T"], Fixed := [], SteppingScheme := "explicit",
  ToExtension := [], FromExtension := ["Tinc"], driver := (fun _ => [scalar 1]),
  update_frequency := 100, OutputFreq := 86400,
  nlev := 1, nlat := 1, nlon := 1, knownDim := (fun _ => "") }

def c3s : CompState := {
  params := [("dt", scalar 30), ("calday", scalar 0), ("lod", scalar 86400),
    ("daysperyear", scalar 365)],
  gridv := [], stateNow := [("T", scalar 5)], stateOld := [("T", scalar 5)],
  elapsedTime := 0, Inc := [], outputCount := 0 }

def c3sFinal : CompState := {
  params := [("dt", scalar 30), ("lod", scalar 86400), ("daysperyear", scalar 365),
    ("calday", scalar (1/2880))],
  gridv := [], stateNow := [("T", scalar 7)], stateOld := [("T", scalar 5)],
  elapsedTime := 30, Inc := [("T", scalar 2)], outputCount := 0 }

theorem C3_external_inc_accumulation_witness :
    dlookup c3s.Inc "T" = none
    ∧ invoked c3cfg false
        (advance c3cfg { c3s with Inc := mergeInc c3s.Inc [("T", scalar 2)] }) = false
    ∧ stepIter c3cfg [("T", scalar 2)] c3s = Except.ok c3sFinal
    ∧ dlookup c3sFinal.Inc "T" = some (scalar 2)
    ∧ dlookup (mergeInc c3sFinal.Inc [("T", scalar 2)]) "T"
        = some (valAdd (scalar 2) (scalar 2)) := by
  have h0 : dlookup c3s.Inc "T" = none := by with_unfolding_all rfl
  have hg : invoked c3cfg false
      (advance c3cfg { c3s with Inc := mergeInc c3s.Inc [("T", scalar 2)] }) = false := by
    with_unfolding_all rfl
  have hr : stepIter c3cfg [("T", scalar 2)] c3s = Except.ok c3sFinal := by
    with_unfolding_all rfl
  exact ⟨h0, hg, hr,
    (C3_external_inc_accumulation c3cfg c3s (scalar 2) c3sFinal h0 hg hr).2.1,
    (C3_external_inc_accumulation c3cfg c3s (scalar 2) c3sFinal h0 hg hr).2.2⟩

theorem dremove_append (l1 l2 : FieldMap) (k : String) :
    dremove (l1 ++ l2) k = dremove l1 k ++ dremove l2 k := by
  induction l1 with
  | nil => rfl
  | cons p rest ih =>
    show (if p.1 = k then dremove (rest ++ l2) k else p :: dremove (rest ++ l2) k)
        = (if p.1 = k then dremove rest k else p :: dremove rest k) ++ dremove l2 k
    by_cases h : p.1 = k
    · rw [if_pos h, if_pos h, ih]
    · rw [if_neg h, if_neg h, ih]
      rfl

theorem dremove_idem (m : FieldMap) (k : String) :
    dremove (dremove m k) k = dremove m k := by
  induction m with
  | nil => rfl
  | cons p rest ih =>
    by_cases h : p.1 = k
    · show dremove (if p.1 = k then dremove rest k else p :: dremove rest k) k
          = if p.1 = k then dremove rest k else p :: dremove rest k
      rw [if_pos h, ih]
    · show dremove (if p.1 = k then dremove rest k else p :: dremove rest k) k
          = if p.1 = k then dremove rest k else p :: dremove rest k
      rw [if_neg h]
      show (if p.1 = k then dremove (dremove rest k) k else p :: dremove (dremove rest k) k)
          = p :: dremove rest k
      rw [if_neg h, ih]

theorem dinsert_dinsert_self (m : FieldMap) (k : String) (a b : Value) :
    dinsert (dinsert m k a) k b = dinsert m k b := by
  unfold dinsert
  rw [dremove_append, dremove_idem]
  show dremove m k ++ dremove [(k, a)] k ++ [(k, b)] = dremove m k ++ [(k, b)]
  have : dremove [(k, a)] k = ([] : FieldMap) := by
    show (if k = k then dremove [] k else (k, a) :: dremove [] k) = []
    rw [if_pos rfl]
    rfl
  rw [this, List.append_nil]

theorem getitemRat_param (s : CompState) (k : String) (v : Value)
    (h : dlookup s.params k = some v) : getitemRat s k = v.toRat := by
  unfold getitemRat getitem
  rw [h]
  dsimp only [Option.getD]
  exact toRat_squeezeVal v

theorem getitem_update_params_ne (s : CompState) (p' : FieldMap) (k' : String)
    (h : dlookup p' k' = dlookup s.params k') :
    getitem { s with params := p' } k' = getitem s k' := by
  unfold getitem
  dsimp only
  rw [h]

theorem getitemRat_update_params_ne (s : CompState) (p' : FieldMap) (k' : String)
    (h : dlookup p' k' = dlookup s.params k') :
    getitemRat { s with params := p' } k' = getitemRat s k' := by
  unfold getitemRat
  rw [getitem_update_params_ne s p' k' h]

theorem compute_ok_params (cfg : CompConfig) (forced b : Bool)
    (s s' : CompState) (hok : compute cfg forced s = (b, Except.ok s')) :
    s'.params = s.params := by
  unfold compute at hok
  by_cases hi : invoked cfg forced s = false
  · rw [if_pos hi] at hok
    have h2 := congrArg Prod.snd hok
    dsimp at h2
    injection h2 with h3
    rw [← h3]
  · rw [if_neg hi] at hok
    dsimp only at hok
    cases hE : extractIncs cfg.Prognostic s.Inc (buildOutput cfg s) with
    | missing i o =>
      rw [hE] at hok
      have := congrArg Prod.snd hok
      simp at this
    | ok inc out =>
      rw [hE] at hok
      have h2 := congrArg Prod.snd hok
      dsimp at h2
      injection h2 with h3
      rw [← h3]

/-- The calendar wrap of `Component.step`, as a function of the updated
`calday` value `c` and `daysperyear` `y`: subtract `y` once if exceeded. -/
def wrapCal (c y : ℚ) : ℚ := if y < c then c - y else c

theorem setitemForce_params_of_mem (cfg : CompConfig) (s : CompState)
    (k : String) (v : Value) (h : dmem s.params k = true) :
    setitemForce cfg s k v = { s with params := dinsert s.params k v } := by
  unfold setitemForce setitem
  rw [h]
  rfl

theorem calUpdate_params_char (cfg : CompConfig) (s : CompState) (vc : Value)
    (hvc : dlookup s.params "calday" = some vc) :
    (calUpdate cfg s).params
      = dinsert s.params "calday"
          (scalar (wrapCal (vc.toRat + getitemRat s "dt" / getitemRat s "lod")
            (getitemRat s "daysperyear"))) := by
  have hmem : dmem s.params "calday" = true := (dmem_iff_lookup _ _).mpr ⟨vc, hvc⟩
  have hcal : getitemRat s "calday" = vc.toRat := getitemRat_param s _ vc hvc
  unfold calUpdate
  dsimp only
  rw [setitemForce_params_of_mem cfg s _ _ hmem, hcal]
  set cplus := vc.toRat + getitemRat s "dt" / getitemRat s "lod" with hcplus
  set s1 : CompState :=
    { s with params := dinsert s.params "calday" (scalar cplus) } with hs1
  have h1cal : getitemRat s1 "calday" = cplus := by
    have : dlookup s1.params "calday" = some (scalar cplus) := by
      show dlookup (dinsert s.params "calday" (scalar cplus)) "calday" = _
      exact dlookup_dinsert_self _ _ _
    rw [getitemRat_param s1 _ _ this]
    rfl
  have h1dpy : getitemRat s1 "daysperyear" = getitemRat s "daysperyear" := by
    apply getitemRat_update_params_ne
    exact dlookup_dinsert_ne _ _ _ _ (by decide)
  have h1mem : dmem s1.params "calday" = true := by
    rw [dmem_iff_lookup]
    refine ⟨scalar cplus, ?_⟩
    show dlookup (dinsert s.params "calday" (scalar cplus)) "calday" = _
    exact dlookup_dinsert_self _ _ _
  by_cases hw : getitemRat s1 "daysperyear" < getitemRat s1 "calday"
  · rw [if_pos hw, setitemForce_params_of_mem cfg s1 _ _ h1mem]
    show dinsert (dinsert s.params "calday" (scalar cplus)) "calday" _ = _
    rw [dinsert_dinsert_self]
    rw [h1cal, h1dpy] at hw ⊢
    unfold wrapCal
    rw [if_pos hw]
  · rw [if_neg hw]
    show dinsert s.params "calday" (scalar cplus) = _
    rw [h1cal, h1dpy] at hw
    unfold wrapCal
    rw [if_neg hw]

theorem stepIter_calday (cfg : CompConfig) (ext : FieldMap) (s s' : CompState)
    (vdt vlod vdpy : Value)
    (hdt : dlookup s.params "dt" = some vdt)
    (hlod : dlookup s.params "lod" = some vlod)
    (hdpy : dlookup s.params "daysperyear" = some vdpy)
    (hc : dmem s.params "calday" = true)
    (h : stepIter cfg ext s = Except.ok s') :
    getitemRat s' "calday"
      = wrapCal (getitemRat s "calday" + vdt.toRat / vlod.toRat) vdpy.toRat
    ∧ dlookup s'.params "dt" = some vdt
    ∧ dlookup s'.params "lod" = some vlod
    ∧ dlookup s'.params "daysperyear" = some vdpy
    ∧ dmem s'.params "calday" = true := by
  rcases (dmem_iff_lookup _ _).mp hc with ⟨vc, hvc⟩
  unfold stepIter at h
  dsimp only at h
  rcases hcres : compute cfg false (advance cfg { s with Inc := mergeInc s.Inc ext })
    with ⟨b, r⟩
  rw [hcres] at h
  cases r with
  | error e => cases h
  | ok s3 =>
    have h3params : s3.params = s.params :=
      compute_ok_params cfg false b
        (advance cfg { s with Inc := mergeInc s.Inc ext }) s3 hcres
    dsimp only at h
    injection h with h6
    have hsparams : s'.params = (calUpdate cfg s3).params := by
      rw [← h6]
      split <;> rfl
    have h3vc : dlookup s3.params "calday" = some vc := by rw [h3params]; exact hvc
    have hchar := calUpdate_params_char cfg s3 vc h3vc
    have h3dt : getitemRat s3 "dt" = vdt.toRat :=
      getitemRat_param s3 _ vdt (by rw [h3params]; exact hdt)
    have h3lod : getitemRat s3 "lod" = vlod.toRat :=
      getitemRat_param s3 _ vlod (by rw [h3params]; exact hlod)
    have h3dpy : getitemRat s3 "daysperyear" = vdpy.toRat :=
      getitemRat_param s3 _ vdpy (by rw [h3params]; exact hdpy)
    rw [h3dt, h3lod, h3dpy] at hchar
    have hscal : getitemRat s "calday" = vc.toRat := getitemRat_param s _ vc hvc
    have hparfinal : s'.params = dinsert s.params "calday"
        (scalar (wrapCal (vc.toRat + vdt.toRat / vlod.toRat) vdpy.toRat)) := by
      rw [hsparams, hchar, h3params]
    refine ⟨?_, ?_, ?_, ?_, ?_⟩
    · have hlk : dlookup s'.params "calday"
          = some (scalar (wrapCal (vc.toRat + vdt.toRat / vlod.toRat) vdpy.toRat)) := by
        rw [hparfinal]
        exact dlookup_dinsert_self _ _ _
      rw [getitemRat_param s' _ _ hlk, hscal]
      rfl
    · rw [hparfinal, dlookup_dinsert_ne _ _ _ _ (by decide)]
      exact hdt
    · rw [hparfinal, dlookup_dinsert_ne _ _ _ _ (by decide)]
      exact hlod
    · rw [hparfinal, dlookup_dinsert_ne _ _ _ _ (by decide)]
      exact hdpy
    · rw [dmem_iff_lookup]
      refine ⟨scalar (wrapCal (vc.toRat + vdt.toRat / vlod.toRat) vdpy.toRat), ?_⟩
      rw [hparfinal]
      exact dlookup_dinsert_self _ _ _

theorem stepLoop_calday (cfg : CompConfig) (ext : FieldMap) (n : ℕ) :
    ∀ (s s' : CompState) (vdt vlod vdpy : Value),
    dlookup s.params "dt" = some vdt →
    dlookup s.params "lod" = some vlod →
    dlookup s.params "daysperyear" = some vdpy →
    dmem s.params "calday" = true →
    stepLoop cfg ext n s = Except.ok s' →
    ∃ k : ℤ, getitemRat s' "calday"
      = getitemRat s "calday" + n * (vdt.toRat / vlod.toRat) + k * vdpy.toRat := by
  induction n with
  | zero =>
    intro s s' vdt vlod vdpy hdt hlod hdpy hc h
    injection h with h1
    rw [← h1]
    exact ⟨0, by push_cast; ring⟩
  | succ n ih =>
    intro s s' vdt vlod vdpy hdt hlod hdpy hc h
    unfold stepLoop at h
    cases hi : stepIter cfg ext s with
    | error e => rw [hi] at h; cases h
    | ok s1 =>
      rw [hi] at h
      obtain ⟨hcal, hdt1, hlod1, hdpy1, hc1⟩ :=
        stepIter_calday cfg ext s s1 vdt vlod vdpy hdt hlod hdpy hc hi
      obtain ⟨k, hk⟩ := ih s1 s' vdt vlod vdpy hdt1 hlod1 hdpy1 hc1 h
      unfold wrapCal at hcal
      by_cases hw : vdpy.toRat < getitemRat s "calday" + vdt.toRat / vlod.toRat
      · rw [if_pos hw] at hcal
        refine ⟨k - 1, ?_⟩
        rw [hk, hcal]
        push_cast
        ring
      · rw [if_neg hw] at hcal
        refine ⟨k, ?_⟩
        rw [hk, hcal]
        push_cast
        ring

/-- C8: each completing iteration of `step` advances `calday` by
`dt/lod` and subtracts `daysperyear` exactly when the advanced value
exceeds it; consequently a completing run of `N` steps that spans exactly
`daysperyear` days of simulated time (`N·(dt/lod) = daysperyear`) returns
`calday` to its starting value modulo `daysperyear` (the difference is an
integer multiple of `daysperyear`). -/
theorem C8_calendar_wraparound (cfg : CompConfig) (ext : FieldMap) :
    (∀ (s s' : CompState) (vdt vlod vdpy vc : Value),
      dlookup s.params "dt" = some vdt →
      dlookup s.params "lod" = some vlod →
      dlookup s.params "daysperyear" = some vdpy →
      dlookup s.params "calday" = some vc →
      stepIter cfg ext s = Except.ok s' →
      getitemRat s' "calday"
        = wrapCal (vc.toRat + vdt.toRat / vlod.toRat) vdpy.toRat)
    ∧ (∀ (n : ℕ) (s s' : CompState) (vdt vlod vdpy : Value),
      dlookup s.params "dt" = some vdt →
      dlookup s.params "lod" = some vlod →
      dlookup s.params "daysperyear" = some vdpy →
      dmem s.params "calday" = true →
      (n : ℚ) * (vdt.toRat / vlod.toRat) = vdpy.toRat →
      stepLoop cfg ext n s = Except.ok s' →
      ∃ k : ℤ, getitemRat s' "calday"
        = getitemRat s "calday" + k * vdpy.toRat) := by
  constructor
  · intro s s' vdt vlod vdpy vc hdt hlod hdpy hvc h
    have hc : dmem s.params "calday" = true := (dmem_iff_lookup _ _).mpr ⟨vc, hvc⟩
    have := (stepIter_calday cfg ext s s' vdt vlod vdpy hdt hlod hdpy hc h).1
    rw [this, getitemRat_param s _ vc hvc]
  · intro n s s' vdt vlod vdpy hdt hlod hdpy hc hspan h
    obtain ⟨k, hk⟩ := stepLoop_calday cfg ext n s s' vdt vlod vdpy hdt hlod hdpy hc h
    refine ⟨k + 1, ?_⟩
    rw [hk, hspan]
    push_cast
    ring

/-- Witness component for the calendar: `dt = 30`, `lod = 60` (so each
step is half a "day"), `daysperyear = 1`, `calday` starts at `7/10`; two
steps span exactly one year, wrap once past the boundary, and return
`calday` to `7/10`. -/
def c8cfg : CompConfig := {
  Prognostic := [], Fixed := [], SteppingScheme := "explicit",
  ToExtension := [], FromExtension := [], driver := (fun _ => []),
  update_frequency := 100, OutputFreq := 86400,
  nlev := 1, nlat := 1, nlon := 1, knownDim := (fun _ => "") }

def c8s : CompState := {
  params := [("dt", scalar 30), ("calday", scalar (7/10)), ("lod", scalar 60),
    ("daysperyear", scalar 1)],
  gridv := [], stateNow := [], stateOld := [],
  elapsedTime := 0, Inc := [], outputCount := 0 }

def c8sFinal : CompState := {
  params := [("dt", scalar 30), ("lod", scalar 60), ("daysperyear", scalar 1),
    ("calday", scalar (7/10))],
  gridv := [], stateNow := [], stateOld := [],
  elapsedTime := 60, Inc := [], outputCount := 0 }

theorem C8_calendar_wraparound_witness :
    dlookup c8s.params "dt" = some (scalar 30)
    ∧ ((2 : ℕ) : ℚ) * ((scalar 30).toRat / (scalar 60).toRat) = (scalar 1).toRat
    ∧ stepLoop c8cfg [] 2 c8s = Except.ok c8sFinal
    ∧ ∃ k : ℤ, getitemRat c8sFinal "calday"
        = getitemRat c8s "calday" + k * (scalar 1).toRat := by
  refine ⟨by with_unfolding_all rfl, by with_unfolding_all rfl,
    by with_unfolding_all rfl, ?_⟩
  exact (C8_calendar_wraparound c8cfg []).2 2 c8s c8sFinal
    (scalar 30) (scalar 60) (scalar 1)
    (by with_unfolding_all rfl) (by with_unfolding_all rfl)
    (by with_unfolding_all rfl) (by with_unfolding_all rfl)
    (by with_unfolding_all rfl) (by with_unfolding_all rfl)

theorem pyInt_nonneg_eq_floor (q : ℚ) (hq : 0 ≤ q) : pyInt q = ⌊q⌋ := by
  unfold pyInt
  rw [if_neg (not_lt.mpr hq)]

theorem pyInt_zero_of_lt_one (q : ℚ) (h0 : 0 ≤ q) (h1 : q < 1) : pyInt q = 0 := by
  rw [pyInt_nonneg_eq_floor q h0]
  exact Int.floor_eq_zero_iff.mpr ⟨h0, h1⟩

theorem stepLoop_eq_iterExcept (cfg : CompConfig) (ext : FieldMap) (n : ℕ) :
    ∀ s, stepLoop cfg ext n s = iterExcept (stepIter cfg ext) n s := by
  induction n with
  | zero => intro s; rfl
  | succ n ih =>
    intro s
    show (match stepIter cfg ext s with
        | Except.error e => Except.error e
        | Except.ok s' => stepLoop cfg ext n s')
      = (match stepIter cfg ext s with
        | Except.error e => Except.error e
        | Except.ok s' => iterExcept (stepIter cfg ext) n s')
    cases stepIter cfg ext s with
    | error e => rfl
    | ok s' => exact ih s'

/-- C9: `step` with an integer `RunLength` `n ≥ 0` performs exactly `n`
iterations of the loop body; with a real-valued `RunLength` it performs
exactly `⌊RunLength/dt⌋` iterations (truncating division, which equals the
floor here since both operands are nonnegative); in particular a
real-valued `RunLength` with `0 ≤ RunLength < dt` performs zero
iterations, returning the state — `State`, `Inc`, `calday`, and the
output-record count — entirely unchanged. -/
theorem C9_runlength_iterations (cfg : CompConfig) (ext : FieldMap)
    (s : CompState) :
    (∀ n : ℕ, step cfg (RunLength.int (n : ℤ)) ext s
        = iterExcept (stepIter cfg ext) n s)
    ∧ (∀ q : ℚ, 0 ≤ q → 0 < getitemRat s "dt" →
        step cfg (RunLength.real q) ext s
          = iterExcept (stepIter cfg ext) (⌊q / getitemRat s "dt"⌋).toNat s)
    ∧ (∀ q : ℚ, 0 ≤ q → q < getitemRat s "dt" →
        step cfg (RunLength.real q) ext s = Except.ok s) := by
  refine ⟨?_, ?_, ?_⟩
  · intro n
    show stepLoop cfg ext (Int.toNat (n : ℤ)) s = _
    rw [Int.toNat_ofNat]
    exact stepLoop_eq_iterExcept cfg ext n s
  · intro q hq hdt
    show stepLoop cfg ext (pyInt (q / getitemRat s "dt")).toNat s = _
    rw [pyInt_nonneg_eq_floor _ (div_nonneg hq hdt.le)]
    exact stepLoop_eq_iterExcept cfg ext _ s
  · intro q hq hlt
    have hdt : 0 < getitemRat s "dt" := lt_of_le_of_lt hq hlt
    show stepLoop cfg ext (pyInt (q / getitemRat s "dt")).toNat s = _
    rw [pyInt_zero_of_lt_one _ (div_nonneg hq hdt.le) ((div_lt_one hdt).mpr hlt)]
    rfl

/-- Witness component for the step-count semantics: with `dt = 30`, a
real run length of 10 seconds is below one timestep and leaves the
component state untouched, and an integer run length of 2 is two loop
iterations. -/
def c9cfg : CompConfig := {
  Prognostic := [], Fixed := [], SteppingScheme := "explicit",
  ToExtension := [], FromExtension := [], driver := (fun _ => []),
  update_frequency := 100, OutputFreq := 86400,
  nlev := 1, nlat := 1, nlon := 1, knownDim := (fun _ => "") }

def c9s : CompState := {
  params := [("dt", scalar 30), ("calday", scalar 0), ("lod", scalar 86400),
    ("daysperyear", scalar 365)],
  gridv := [], stateNow := [], stateOld := [],
  elapsedTime := 0, Inc := [], outputCount := 0 }

theorem C9_runlength_iterations_witness :
    (0 : ℚ) ≤ 10 ∧ (10 : ℚ) < getitemRat c9s "dt"
    ∧ step c9cfg (RunLength.real 10) [] c9s = Except.ok c9s
    ∧ step c9cfg (RunLength.int ((2 : ℕ) : ℤ)) [] c9s
        = iterExcept (stepIter c9cfg []) 2 c9s := by
  have h1 : (0 : ℚ) ≤ 10 := by norm_num
  have h2 : (10 : ℚ) < getitemRat c9s "dt" := by
    have : getitemRat c9s "dt" = 30 := by with_unfolding_all rfl
    rw [this]
    norm_num
  exact ⟨h1, h2, (C9_runlength_iterations c9cfg [] c9s).2.2 10 h1 h2,
    (C9_runlength_iterations c9cfg [] c9s).1 2⟩

/-- C7, amended: for a known State field `k` with declared 2D shape
`(nlat, nlon)` (and not shadowed by a Parameter or Grid key), setting
`component[k] = v` with a matching element count stores `v` reshaped to
`(nlat, nlon)`, and `component[k]` then returns every element of `v` in
order under that shape with degenerate (length-1) axes squeezed away; in
particular, when `nlat > 1` and `nlon > 1` the round-trip returns exactly
`v` reshaped to `(nlat, nlon)`. -/
theorem C7_accessor_roundtrip (cfg : CompConfig) (s : CompState) (k : String)
    (a : Arr)
    (hp : dmem s.params k = false) (hg : dmem s.gridv k = false)
    (hs : dmem s.stateNow k = true) (hd : cfg.knownDim k = "2D")
    (hlen : a.data.length = listProd [cfg.nlat, cfg.nlon]) :
    ∃ s', setitem cfg s k (Value.num a) = some s'
      ∧ getitem s' k
          = some (Value.num ⟨([cfg.nlat, cfg.nlon]).filter (fun n => n != 1), a.data⟩)
      ∧ (1 < cfg.nlat → 1 < cfg.nlon →
          getitem s' k = some (Value.num ⟨[cfg.nlat, cfg.nlon], a.data⟩)) := by
  have hcond : (dmem s.stateNow k && (cfg.knownDim k == "2D")) = true := by
    rw [hs, hd]
    rfl
  refine ⟨{ s with stateNow := dinsert s.stateNow k (Value.num ⟨[cfg.nlat, cfg.nlon], a.data⟩) }, ?_, ?_, ?_⟩
  · unfold setitem
    rw [hp, hg, hcond]
    rw [if_neg (by simp), if_neg (by simp), if_pos rfl]
    have hre : reshapeVal (Value.num a) [cfg.nlat, cfg.nlon]
        = some (Value.num ⟨[cfg.nlat, cfg.nlon], a.data⟩) := by
      show (if a.data.length = listProd [cfg.nlat, cfg.nlon]
          then some (Value.num ⟨[cfg.nlat, cfg.nlon], a.data⟩) else none)
        = some (Value.num ⟨[cfg.nlat, cfg.nlon], a.data⟩)
      rw [if_pos hlen]
    rw [hre]
  · unfold getitem
    dsimp only
    rw [(dmem_false_iff_lookup _ _).mp hp, (dmem_false_iff_lookup _ _).mp hg,
      dlookup_dinsert_self]
    rfl
  · intro h1 h2
    unfold getitem
    dsimp only
    rw [(dmem_false_iff_lookup _ _).mp hp, (dmem_false_iff_lookup _ _).mp hg,
      dlookup_dinsert_self]
    have hf : ([cfg.nlat, cfg.nlon]).filter (fun n => n != 1)
        = [cfg.nlat, cfg.nlon] := by
      have e1 : (cfg.nlat != 1) = true := bne_iff_ne.mpr (Nat.ne_of_gt h1)
      have e2 : (cfg.nlon != 1) = true := bne_iff_ne.mpr (Nat.ne_of_gt h2)
      simp [List.filter, e1, e2]
    have hsq : squeezeVal (Value.num ⟨[cfg.nlat, cfg.nlon], a.data⟩)
        = Value.num ⟨([cfg.nlat, cfg.nlon]).filter (fun n => n != 1), a.data⟩ := rfl
    show some (squeezeVal (Value.num ⟨[cfg.nlat, cfg.nlon], a.data⟩)) = _
    rw [hsq, hf]

/-- Concrete component for the accessor counterexample: a single-latitude
grid (`nlat = 1`, `nlon = 2`) with the known 2D State field `Ts`. -/
def c7cfg : CompConfig := {
  Prognostic := [], Fixed := [], SteppingScheme := "explicit",
  ToExtension := [], FromExtension := [], driver := (fun _ => []),
  update_frequency := 100, OutputFreq := 86400,
  nlev := 1, nlat := 1, nlon := 2,
  knownDim := (fun k => if k = "Ts" then "2D" else "") }

def c7s : CompState := {
  params := [], gridv := [], stateNow := [("Ts", scalar 0)],
  stateOld := [("Ts", scalar 0)], elapsedTime := 0, Inc := [], outputCount := 0 }

def c7sAfter : CompState := {
  params := [], gridv := [],
  stateNow := [("Ts", Value.num ⟨[1, 2], [5, 7]⟩)],
  stateOld := [("Ts", scalar 0)], elapsedTime := 0, Inc := [], outputCount := 0 }

/-- C7, counterexample: with declared 2D shape `(nlat, nlon) = (1, 2)`,
setting `Ts` to the two-element value and reading it back returns the
elements under the squeezed shape `(2,)` — the getter drops the degenerate
latitude axis — not the value reshaped to `(1, 2)` that the claim
promises. -/
theorem C7_squeeze_counterexample :
    setitem c7cfg c7s "Ts" (Value.num ⟨[2], [5, 7]⟩) = some c7sAfter
    ∧ getitem c7sAfter "Ts" = some (Value.num ⟨[2], [5, 7]⟩)
    ∧ getitem c7sAfter "Ts" ≠ some (Value.num ⟨[1, 2], [5, 7]⟩) := by
  refine ⟨by with_unfolding_all rfl, by with_unfolding_all rfl, ?_⟩
  intro h
  have h2 : getitem c7sAfter "Ts" = some (Value.num ⟨[2], [5, 7]⟩) := by
    with_unfolding_all rfl
  rw [h2] at h
  injection h with h3
  cases h3

/-- Witness component for the amended accessor round-trip at a
nondegenerate shape `(nlat, nlon) = (2, 3)`. -/
def c7wcfg : CompConfig := {
  Prognostic := [], Fixed := [], SteppingScheme := "explicit",
  ToExtension := [], FromExtension := [], driver := (fun _ => []),
  update_frequency := 100, OutputFreq := 86400,
  nlev := 1, nlat := 2, nlon := 3,
  knownDim := (fun k => if k = "Ts" then "2D" else "") }

def c7ws : CompState := {
  params := [], gridv := [], stateNow := [("Ts", scalar 0)],
  stateOld := [("Ts", scalar 0)], elapsedTime := 0, Inc := [], outputCount := 0 }

def c7wa : Arr := ⟨[6], [1, 2, 3, 4, 5, 6]⟩

theorem C7_accessor_roundtrip_witness :
    dmem c7ws.params "Ts" = false ∧ dmem c7ws.gridv "Ts" = false
    ∧ dmem c7ws.stateNow "Ts" = true ∧ c7wcfg.knownDim "Ts" = "2D"
    ∧ c7wa.data.length = listProd [c7wcfg.nlat, c7wcfg.nlon]
    ∧ ∃ s', setitem c7wcfg c7ws "Ts" (Value.num c7wa) = some s'
      ∧ getitem s' "Ts"
          = some (Value.num ⟨([c7wcfg.nlat, c7wcfg.nlon]).filter (fun n => n != 1),
              c7wa.data⟩)
      ∧ (1 < c7wcfg.nlat → 1 < c7wcfg.nlon →
          getitem s' "Ts" = some (Value.num ⟨[c7wcfg.nlat, c7wcfg.nlon], c7wa.data⟩)) :=
  ⟨by with_unfolding_all rfl, by with_unfolding_all rfl, by with_unfolding_all rfl,
    by with_unfolding_all rfl, by with_unfolding_all rfl,
    C7_accessor_roundtrip c7wcfg c7ws "Ts" c7wa (by with_unfolding_all rfl)
      (by with_unfolding_all rfl) (by with_unfolding_all rfl)
      (by with_unfolding_all rfl) (by with_unfolding_all rfl)⟩
